import Mathlib

/-!
Verification of the ELF header serializer and fixture comparator in
tools/execfmt_support/check_bins.py.

The script builds, byte for byte, minimal ELF executables for five
architectures and compares them against on-disk fixtures.  The core is the
pure function gen_headers, which serializes an ELF file header followed by a
single program-header-table entry.  We embed it here over lists of bytes
(natural numbers below 256).  Python integers are modelled as Int; the
int.to_bytes method, which raises OverflowError when the value is negative or
does not fit in the requested width, is modelled as an Option that is none
exactly in those cases, so gen_headers returns none precisely when the Python
function raises.  The source appends one encoded field after the other to a
growing byte string and raises at the first out-of-range field; we keep the
fields in source order in a list and encode them left to right, failing at
the first out-of-range field, then concatenate.
-/

/-- Little-endian base-256 digits of a natural number, exactly the given
number of bytes.  Mirrors the digit sequence produced by the Python
expression val.to_bytes(length, byteorder=littleEndian). -/
def toBytesLE (val : Nat) : Nat → List Nat
  | 0 => []
  | l + 1 => val % 256 :: toBytesLE (val / 256) l

/-- The byte string produced by val.to_bytes(length, byteorder), for an
in-range value: big-endian output is the reverse of the little-endian one. -/
def encBytes (be : Bool) (val : Nat) (length : Nat) : List Nat :=
  if be then (toBytesLE val length).reverse else toBytesLE val length

/-- Model of the helper int_encode inside gen_headers:
val.to_bytes(length, byteorder=big if be else little).  Python raises
OverflowError when val is negative or at least 2 to the power of 8*length;
we return none there. -/
def int_encode (be : Bool) (val : Int) (length : Nat) : Option (List Nat) :=
  if 0 ≤ val ∧ val < ((2 ^ (8 * length) : Nat) : Int) then
    some (encBytes be val.toNat length)
  else
    none

/-- Encode a list of (value, width) fields left to right with int_encode,
failing at the first field whose value is out of range, exactly as the
sequence of ret += int_encode(val, length) statements in the source raises
at the first offending field. -/
def encodeFields (be : Bool) : List (Int × Nat) → Option (List (List Nat))
  | [] => some []
  | f :: fs => do
      let b ← int_encode be f.1 f.2
      let bs ← encodeFields be fs
      return b :: bs

/-- The (value, width) pairs of every int_encode call in gen_headers, in the
order the source emits them.  The p_flags field (PF_X bitor PF_R, that is
(1 <<< 0) bitor (1 <<< 2) = 5) sits between p_type and p_offset in 64-bit
mode but between p_memsz and p_align in 32-bit mode, exactly as in the
source. -/
def header_fields (target_id instr_len : Int) (is64bit : Bool)
    (flags : Int) : List (Int × Nat) :=
  let LOAD_ADDR : Int := 0x10000
  let EHDR_SIZE : Int := if is64bit then 64 else 52
  let PHTB_SIZE : Int := if is64bit then 56 else 32
  let ADDR_SIZE : Nat := if is64bit then 8 else 4
  let HEADER_SIZE : Int := EHDR_SIZE + PHTB_SIZE
  let PF_RX : Int := (((1 <<< 0) ||| (1 <<< 2) : Nat) : Int)
  [((2 : Int), 2),                          -- e_type: ET_EXEC
    (target_id, 2),                         -- e_machine
    ((1 : Int), 4),                         -- e_version: EV_CURRENT
    (LOAD_ADDR + HEADER_SIZE, ADDR_SIZE),   -- e_entry: entry follows headers
    (EHDR_SIZE, ADDR_SIZE),                 -- e_phoff: PHDR table after EHDR
    ((0 : Int), ADDR_SIZE),                 -- e_shoff: no shdr table
    (flags, 4),                             -- e_flags
    (EHDR_SIZE, 2),                         -- e_ehsize
    (PHTB_SIZE, 2),                         -- e_phentsize
    ((1 : Int), 2),                         -- e_phnum: 1 phdr table entry
    ((0 : Int), 2),                         -- e_shentsize
    ((0 : Int), 2),                         -- e_shnum
    ((0 : Int), 2),                         -- e_shstrndx
    ((1 : Int), 4)]                         -- p_type: PT_LOAD
    ++ (if is64bit then [(PF_RX, 4)] else [])  -- p_flags, 64-bit position
    ++ [((0 : Int), ADDR_SIZE),             -- p_offset
      (LOAD_ADDR, ADDR_SIZE),               -- p_vaddr
      ((0 : Int), ADDR_SIZE),               -- p_paddr (unused)
      (HEADER_SIZE + instr_len, ADDR_SIZE), -- p_filesz
      (HEADER_SIZE + instr_len, ADDR_SIZE)] -- p_memsz
    ++ (if is64bit then [] else [(PF_RX, 4)])  -- p_flags, 32-bit position
    ++ [((2 : Int), ADDR_SIZE)]             -- p_align

/-- Model of gen_headers from check_bins.py: the bytes of the ELF header and
program header table, or none where the Python function raises.  The e_ident
block is emitted literally, then every remaining field through int_encode in
source order. -/
def gen_headers (target_id instr_len : Int) (is64bit : Bool := true)
    (be : Bool := false) (flags : Int := 0) : Option (List Nat) :=
  -- e_ident: magic, class, data, version, OS ABI, ABI version, padding
  let e_ident : List Nat :=
    [0x7f, 0x45, 0x4c, 0x46] ++
      ([if is64bit then 2 else 1] ++ [if be then 2 else 1] ++ [1] ++
        [0, 0] ++ [0, 0, 0, 0, 0, 0, 0])
  (encodeFields be (header_fields target_id instr_len is64bit flags)).map
    (fun bs => e_ident ++ bs.flatten)

/-- The output of gen_headers split into its ELF fields: the sixteen single
bytes of e_ident followed by each int_encode field, in output order.
Concatenating the fields gives exactly the gen_headers byte string. -/
def gen_fields (target_id instr_len : Int) (is64bit be : Bool)
    (flags : Int) : Option (List (List Nat)) :=
  (encodeFields be (header_fields target_id instr_len is64bit flags)).map
    (fun bs =>
      [[0x7f], [0x45], [0x4c], [0x46], [if is64bit then 2 else 1],
        [if be then 2 else 1], [1], [0], [0], [0], [0], [0], [0], [0], [0],
        [0]] ++ bs)

/-- Map a function over a list together with the position of each element,
counting from the given start index. -/
def mapWithIdx (g : Nat → List Nat → List Nat) : Nat → List (List Nat) →
    List (List Nat)
  | _, [] => []
  | j, b :: bs => g j b :: mapWithIdx g (j + 1) bs

/-- Machine code of the arm64 fixture: mov w8, 0x5d; mov x0, 0; svc 0. -/
def ARM64_INSTRUCTIONS : List Nat :=
  [0xa8, 0x0b, 0x80, 0x52] ++ [0x00, 0x00, 0x80, 0xd2] ++
    [0x01, 0x00, 0x00, 0xd4]

/-- Machine code of the i386 fixture: push 1; pop eax; xor edx, edx;
int 0x80. -/
def I386_INSTRUCTIONS : List Nat :=
  [0x6a, 0x01] ++ [0x58] ++ [0x31, 0xd2] ++ [0xcd, 0x80]

/-- Machine code of the riscv64 fixture: li a7, 93; li a0, 0; ecall. -/
def RISCV64_INSTRUCTIONS : List Nat :=
  [0x93, 0x08, 0xd0, 0x05] ++ [0x01, 0x45] ++ [0x73, 0x00, 0x00, 0x00]

/-- Machine code of the s390x fixture: lghi r2, 0; svc 1. -/
def S390X_INSTRUCTIONS : List Nat :=
  [0xa7, 0x29, 0x00, 0x00] ++ [0x0a, 0x01]

/-- Machine code of the x86_64 fixture: push 0x3c; pop rax; xor edi, edi;
syscall. -/
def X86_64_INSTRUCTIONS : List Nat :=
  [0x6a, 0x3c] ++ [0x58] ++ [0x31, 0xff] ++ [0x0f, 0x05]

/-- Expected bytes of the arm64 fixture: gen_headers(183, 12) with default
arguments, then the instructions.  The header call is in range, so the getD
default is never taken. -/
def expected_arm64_bytes : List Nat :=
  (gen_headers 183 (ARM64_INSTRUCTIONS.length : Nat) true false 0).getD [] ++
    ARM64_INSTRUCTIONS

/-- Expected bytes of the i386 fixture: gen_headers(3, 7, is64bit=False). -/
def expected_i386_bytes : List Nat :=
  (gen_headers 3 (I386_INSTRUCTIONS.length : Nat) false false 0).getD [] ++
    I386_INSTRUCTIONS

/-- Expected bytes of the riscv64 fixture: gen_headers(243, 10, flags=5). -/
def expected_riscv64_bytes : List Nat :=
  (gen_headers 243 (RISCV64_INSTRUCTIONS.length : Nat) true false 5).getD []
    ++ RISCV64_INSTRUCTIONS

/-- Expected bytes of the s390x fixture: gen_headers(22, 6, be=True). -/
def expected_s390x_bytes : List Nat :=
  (gen_headers 22 (S390X_INSTRUCTIONS.length : Nat) true true 0).getD [] ++
    S390X_INSTRUCTIONS

/-- Expected bytes of the x86_64 fixture: gen_headers(62, 7). -/
def expected_x86_64_bytes : List Nat :=
  (gen_headers 62 (X86_64_INSTRUCTIONS.length : Nat) true false 0).getD [] ++
    X86_64_INSTRUCTIONS

/-- The final value of the fails counter of check_bins.py, given the on-disk
bytes of the five fixture files: one increment per fixture whose bytes differ
from the expected bytes.  The script passes this count to sys.exit, so it is
the process exit status. -/
def fails (arm64_bytes i386_bytes riscv64_bytes s390x_bytes
    x86_64_bytes : List Nat) : Nat :=
  (if arm64_bytes ≠ expected_arm64_bytes then 1 else 0) +
    (if i386_bytes ≠ expected_i386_bytes then 1 else 0) +
    (if riscv64_bytes ≠ expected_riscv64_bytes then 1 else 0) +
    (if s390x_bytes ≠ expected_s390x_bytes then 1 else 0) +
    (if x86_64_bytes ≠ expected_x86_64_bytes then 1 else 0)

/-! Helper lemmas. -/

lemma toBytesLE_length (val l : Nat) : (toBytesLE val l).length = l := by
  induction l generalizing val with
  | zero => rfl
  | succ n ih => simp [toBytesLE, ih]

lemma encBytes_length (be : Bool) (val l : Nat) :
    (encBytes be val l).length = l := by
  cases be <;> simp [encBytes, toBytesLE_length]

lemma int_encode_some (be : Bool) (v : Int) (l : Nat) (h0 : 0 ≤ v)
    (h1 : v < ((2 ^ (8 * l) : Nat) : Int)) :
    int_encode be v l = some (encBytes be v.toNat l) := by
  rw [int_encode, if_pos ⟨h0, h1⟩]

/-- Canonical form of the encoded field list in 64-bit mode, for in-range
arguments. -/
lemma fields64 (t i f : Int) (be : Bool)
    (ht0 : 0 ≤ t) (ht1 : t < 65536)
    (hf0 : 0 ≤ f) (hf1 : f < 4294967296)
    (hi0 : 0 ≤ 120 + i) (hi1 : 120 + i < 18446744073709551616) :
    encodeFields be (header_fields t i true f) =
      some [encBytes be 2 2, encBytes be t.toNat 2, encBytes be 1 4,
        encBytes be 0x10078 8, encBytes be 64 8, encBytes be 0 8,
        encBytes be f.toNat 4, encBytes be 64 2, encBytes be 56 2,
        encBytes be 1 2, encBytes be 0 2, encBytes be 0 2, encBytes be 0 2,
        encBytes be 1 4, encBytes be 5 4, encBytes be 0 8,
        encBytes be 0x10000 8, encBytes be 0 8,
        encBytes be (120 + i).toNat 8, encBytes be (120 + i).toNat 8,
        encBytes be 2 8] := by
  simp [header_fields, encodeFields, int_encode, encBytes,
    ht0, ht1, hf0, hf1, hi0, hi1]

/-- Canonical form of the encoded field list in 32-bit mode, for in-range
arguments: p_flags sits between p_memsz and p_align. -/
lemma fields32 (t i f : Int) (be : Bool)
    (ht0 : 0 ≤ t) (ht1 : t < 65536)
    (hf0 : 0 ≤ f) (hf1 : f < 4294967296)
    (hi0 : 0 ≤ 84 + i) (hi1 : 84 + i < 4294967296) :
    encodeFields be (header_fields t i false f) =
      some [encBytes be 2 2, encBytes be t.toNat 2, encBytes be 1 4,
        encBytes be 0x10054 4, encBytes be 52 4, encBytes be 0 4,
        encBytes be f.toNat 4, encBytes be 52 2, encBytes be 32 2,
        encBytes be 1 2, encBytes be 0 2, encBytes be 0 2, encBytes be 0 2,
        encBytes be 1 4, encBytes be 0 4,
        encBytes be 0x10000 4, encBytes be 0 4,
        encBytes be (84 + i).toNat 4, encBytes be (84 + i).toNat 4,
        encBytes be 5 4, encBytes be 2 4] := by
  simp [header_fields, encodeFields, int_encode, encBytes,
    ht0, ht1, hf0, hf1, hi0, hi1]

/-- A negative or too large e_machine value makes gen_headers fail, as the
to_bytes call for e_machine raises OverflowError in the source. -/
lemma gen_headers_none_of_target (t i f : Int) (w be : Bool)
    (h : t < 0 ∨ 65536 ≤ t) : gen_headers t i w be f = none := by
  have ht : ¬(0 ≤ t ∧ t < 65536) := by omega
  cases w <;> simp [gen_headers, header_fields, encodeFields, int_encode, ht]

/-- A negative or too large e_flags value makes gen_headers fail. -/
lemma gen_headers_none_of_flags (t i f : Int) (w be : Bool)
    (h : f < 0 ∨ 4294967296 ≤ f) : gen_headers t i w be f = none := by
  have hf : ¬(0 ≤ f ∧ f < 4294967296) := by omega
  cases w <;> simp [gen_headers, header_fields, encodeFields, int_encode, hf]

/-- In 64-bit mode, an out-of-range p_filesz value makes gen_headers fail. -/
lemma gen_headers_none_of_size64 (t i f : Int) (be : Bool)
    (h : 120 + i < 0 ∨ 18446744073709551616 ≤ 120 + i) :
    gen_headers t i true be f = none := by
  have hi : ¬(0 ≤ 120 + i ∧ 120 + i < 18446744073709551616) := by omega
  simp [gen_headers, header_fields, encodeFields, int_encode, hi]

/-- In 32-bit mode, an out-of-range p_filesz value makes gen_headers fail. -/
lemma gen_headers_none_of_size32 (t i f : Int) (be : Bool)
    (h : 84 + i < 0 ∨ 4294967296 ≤ 84 + i) :
    gen_headers t i false be f = none := by
  have hi : ¬(0 ≤ 84 + i ∧ 84 + i < 4294967296) := by omega
  simp [gen_headers, header_fields, encodeFields, int_encode, hi]

/-- Whenever gen_headers returns bytes, every variable field was in range. -/
lemma ranges_of_some (t i f : Int) (w be : Bool) (out : List Nat)
    (h : gen_headers t i w be f = some out) :
    (0 ≤ t ∧ t < 65536) ∧ (0 ≤ f ∧ f < 4294967296) ∧
      (0 ≤ (if w then (120 : Int) else 84) + i ∧
        (if w then (120 : Int) else 84) + i <
          (if w then (18446744073709551616 : Int) else 4294967296)) := by
  refine ⟨?_, ?_, ?_⟩
  · by_contra hc
    rw [gen_headers_none_of_target t i f w be (by omega)] at h
    exact Option.noConfusion h
  · by_contra hc
    rw [gen_headers_none_of_flags t i f w be (by omega)] at h
    exact Option.noConfusion h
  · cases w with
    | false =>
      simp only [Bool.false_eq_true, if_false]
      by_contra hc
      rw [gen_headers_none_of_size32 t i f be (by omega)] at h
      exact Option.noConfusion h
    | true =>
      simp only [if_true]
      by_contra hc
      rw [gen_headers_none_of_size64 t i f be (by omega)] at h
      exact Option.noConfusion h

/-- Canonical shape of the 64-bit output: the sixteen e_ident bytes, then
the encoded fields in order. -/
lemma canon64 (t i f : Int) (be : Bool) (out : List Nat)
    (h : gen_headers t i true be f = some out) :
    out = [0x7f, 0x45, 0x4c, 0x46, 2, if be then 2 else 1, 1, 0, 0, 0, 0, 0,
        0, 0, 0, 0] ++
      List.flatten [encBytes be 2 2, encBytes be t.toNat 2, encBytes be 1 4,
        encBytes be 0x10078 8, encBytes be 64 8, encBytes be 0 8,
        encBytes be f.toNat 4, encBytes be 64 2, encBytes be 56 2,
        encBytes be 1 2, encBytes be 0 2, encBytes be 0 2, encBytes be 0 2,
        encBytes be 1 4, encBytes be 5 4, encBytes be 0 8,
        encBytes be 0x10000 8, encBytes be 0 8,
        encBytes be (120 + i).toNat 8, encBytes be (120 + i).toNat 8,
        encBytes be 2 8] := by
  obtain ⟨⟨ht0, ht1⟩, ⟨hf0, hf1⟩, hsz⟩ := ranges_of_some t i f true be out h
  simp only [if_true] at hsz
  rw [gen_headers, fields64 t i f be ht0 ht1 hf0 hf1 hsz.1 hsz.2] at h
  simp only [Option.map_some', Option.some.injEq] at h
  subst h
  cases be <;> rfl

/-- Canonical shape of the 32-bit output: p_flags between p_memsz and
p_align. -/
lemma canon32 (t i f : Int) (be : Bool) (out : List Nat)
    (h : gen_headers t i false be f = some out) :
    out = [0x7f, 0x45, 0x4c, 0x46, 1, if be then 2 else 1, 1, 0, 0, 0, 0, 0,
        0, 0, 0, 0] ++
      List.flatten [encBytes be 2 2, encBytes be t.toNat 2, encBytes be 1 4,
        encBytes be 0x10054 4, encBytes be 52 4, encBytes be 0 4,
        encBytes be f.toNat 4, encBytes be 52 2, encBytes be 32 2,
        encBytes be 1 2, encBytes be 0 2, encBytes be 0 2, encBytes be 0 2,
        encBytes be 1 4, encBytes be 0 4,
        encBytes be 0x10000 4, encBytes be 0 4,
        encBytes be (84 + i).toNat 4, encBytes be (84 + i).toNat 4,
        encBytes be 5 4, encBytes be 2 4] := by
  obtain ⟨⟨ht0, ht1⟩, ⟨hf0, hf1⟩, hsz⟩ := ranges_of_some t i f false be out h
  simp only [Bool.false_eq_true, if_false] at hsz
  rw [gen_headers, fields32 t i f be ht0 ht1 hf0 hf1 hsz.1 hsz.2] at h
  simp only [Option.map_some', Option.some.injEq] at h
  subst h
  cases be <;> rfl

/-- C1: whenever gen_headers returns a byte sequence, its length is exactly
120 bytes (64 + 56) in 64-bit mode and exactly 84 bytes (52 + 32) in 32-bit
mode, for every target_id, instr_len, endianness and flags value. -/
theorem C1_output_length (t i f : Int) (w be : Bool) (out : List Nat)
    (h : gen_headers t i w be f = some out) :
    out.length = if w then 120 else 84 := by
  cases w with
  | false =>
    rw [canon32 t i f be out h]
    simp [encBytes_length]
  | true =>
    rw [canon64 t i f be out h]
    simp [encBytes_length]

theorem C1_witness :
    ((gen_headers 62 4 true false 0).getD []).length = 120 :=
  C1_output_length 62 4 0 true false _ (by decide)

/-- C7: whenever gen_headers returns a byte sequence, its first four bytes
are 7F 45 4C 46, the fixed ELF magic. -/
theorem C7_magic (t i f : Int) (w be : Bool) (out : List Nat)
    (h : gen_headers t i w be f = some out) :
    out.take 4 = [0x7f, 0x45, 0x4c, 0x46] := by
  cases w with
  | false => rw [canon32 t i f be out h]; rfl
  | true => rw [canon64 t i f be out h]; rfl

theorem C7_witness :
    ((gen_headers 22 6 true true 0).getD []).take 4 =
      [0x7f, 0x45, 0x4c, 0x46] :=
  C7_magic 22 6 0 true true _ (by decide)

/-- C4: the e_entry field (at byte offset 24) encodes the load base 0x10000
plus the combined header size (120 in 64-bit mode, 84 in 32-bit mode), and
the e_phoff field right after it encodes the file-header size (64 or 52),
for every input on which gen_headers returns. -/
theorem C4_entry_phoff (t i f : Int) (w be : Bool) (out : List Nat)
    (h : gen_headers t i w be f = some out) :
    (out.drop 24).take (if w then 8 else 4) =
        encBytes be (0x10000 + (if w then 120 else 84)) (if w then 8 else 4) ∧
      (out.drop (if w then 32 else 28)).take (if w then 8 else 4) =
        encBytes be (if w then 64 else 52) (if w then 8 else 4) := by
  cases w with
  | false =>
    rw [canon32 t i f be out h]
    cases be <;> exact ⟨rfl, rfl⟩
  | true =>
    rw [canon64 t i f be out h]
    cases be <;> exact ⟨rfl, rfl⟩

theorem C4_witness :
    (((gen_headers 62 4 true false 0).getD []).drop 24).take 8 =
        encBytes false 65656 8 ∧
      (((gen_headers 62 4 true false 0).getD []).drop 32).take 8 =
        encBytes false 64 8 :=
  C4_entry_phoff 62 4 0 true false _ (by decide)

/-- C5: the p_filesz field (offset 96 in 64-bit mode, 68 in 32-bit mode) and
the p_memsz field right after it hold identical bytes, both encoding the
combined header size plus instr_len, for every input on which gen_headers
returns. -/
theorem C5_filesz_memsz (t i f : Int) (w be : Bool) (out : List Nat)
    (h : gen_headers t i w be f = some out) :
    (out.drop (if w then 96 else 68)).take (if w then 8 else 4) =
        (out.drop (if w then 104 else 72)).take (if w then 8 else 4) ∧
      (out.drop (if w then 96 else 68)).take (if w then 8 else 4) =
        encBytes be ((if w then (120 : Int) else 84) + i).toNat
          (if w then 8 else 4) := by
  cases w with
  | false =>
    rw [canon32 t i f be out h]
    cases be <;> exact ⟨rfl, rfl⟩
  | true =>
    rw [canon64 t i f be out h]
    cases be <;> exact ⟨rfl, rfl⟩

theorem C5_witness :
    (((gen_headers 62 4 true false 0).getD []).drop 96).take 8 =
        (((gen_headers 62 4 true false 0).getD []).drop 104).take 8 ∧
      (((gen_headers 62 4 true false 0).getD []).drop 96).take 8 =
        encBytes false ((120 : Int) + 4).toNat 8 :=
  C5_filesz_memsz 62 4 0 true false _ (by decide)

/-- C3: the single program-header entry has type PT_LOAD (1) and permission
flags PF_X bitor PF_R with the PF_W bit clear; the 4-byte flags field sits
at offset 68, immediately after the 4-byte type field at offset 64, in
64-bit mode, and at offset 76, immediately before the final alignment field
at offset 80, in 32-bit mode. -/
theorem C3_phdr_type_flags (t i f : Int) (w be : Bool) (out : List Nat)
    (h : gen_headers t i w be f = some out) :
    (w = true →
      (out.drop 64).take 4 = encBytes be 1 4 ∧
        (out.drop 68).take 4 =
          encBytes be ((1 <<< 0) ||| (1 <<< 2) : Nat) 4 ∧
        out.drop 112 = encBytes be 2 8) ∧
      (w = false →
        (out.drop 52).take 4 = encBytes be 1 4 ∧
          (out.drop 76).take 4 =
            encBytes be ((1 <<< 0) ||| (1 <<< 2) : Nat) 4 ∧
          out.drop 80 = encBytes be 2 4) ∧
      (((1 <<< 0) ||| (1 <<< 2) : Nat) &&& (1 <<< 1) = 0) := by
  cases w with
  | false =>
    rw [canon32 t i f be out h]
    refine ⟨fun hw => by simp at hw, fun _ => ?_, by decide⟩
    cases be <;> exact ⟨rfl, rfl, rfl⟩
  | true =>
    rw [canon64 t i f be out h]
    refine ⟨fun _ => ?_, fun hw => by simp at hw, by decide⟩
    cases be <;> exact ⟨rfl, rfl, rfl⟩

theorem C3_witness :
    (((gen_headers 3 7 false false 0).getD []).drop 76).take 4 =
        encBytes false ((1 <<< 0) ||| (1 <<< 2) : Nat) 4 ∧
      ((gen_headers 3 7 false false 0).getD []).drop 80 =
        encBytes false 2 4 :=
  ⟨((C3_phdr_type_flags 3 7 0 false false _ (by decide)).2.1 rfl).2.1,
    ((C3_phdr_type_flags 3 7 0 false false _ (by decide)).2.1 rfl).2.2⟩

/-- C9: with everything else fixed, the flags argument influences only the
4 bytes of the e_flags field, at offsets 48 to 51 in 64-bit mode and 36 to
39 in 32-bit mode: outputs for any two flags values agree before and after
that field, and the field itself encodes the flags value. -/
theorem C9_flags_frame (t i : Int) (w be : Bool) (f1 f2 : Int)
    (o1 o2 : List Nat)
    (h1 : gen_headers t i w be f1 = some o1)
    (h2 : gen_headers t i w be f2 = some o2) :
    o1.take (if w then 48 else 36) = o2.take (if w then 48 else 36) ∧
      o1.drop (if w then 52 else 40) = o2.drop (if w then 52 else 40) ∧
      (o1.drop (if w then 48 else 36)).take 4 = encBytes be f1.toNat 4 := by
  cases w with
  | false =>
    rw [canon32 t i f1 be o1 h1, canon32 t i f2 be o2 h2]
    cases be <;> exact ⟨rfl, rfl, rfl⟩
  | true =>
    rw [canon64 t i f1 be o1 h1, canon64 t i f2 be o2 h2]
    cases be <;> exact ⟨rfl, rfl, rfl⟩

theorem C9_witness :
    ((gen_headers 243 10 true false 0).getD []).take 48 =
        ((gen_headers 243 10 true false 5).getD []).take 48 ∧
      ((gen_headers 243 10 true false 0).getD []).drop 52 =
        ((gen_headers 243 10 true false 5).getD []).drop 52 ∧
      (((gen_headers 243 10 true false 0).getD []).drop 48).take 4 =
        encBytes false (0 : Int).toNat 4 :=
  C9_flags_frame 243 10 true false 0 5 _ _ (by decide) (by decide)

/-- C6: gen_headers(62, 4) with the default 64-bit little-endian mode and
zero flags returns 120 bytes with byte 4 equal to 2 (ELFCLASS64), byte 5
equal to 1 (ELFDATA2LSB), bytes 18 and 19 equal to 3E 00 (e_machine 62),
and the final 8 bytes 02 00 00 00 00 00 00 00, the alignment value 2 as a
little-endian 8-byte integer. -/
theorem C6_x86_64_scenario :
    (gen_headers 62 4 true false 0).map
        (fun l => (l.length, l.getD 4 0, l.getD 5 0, (l.drop 18).take 2,
          l.drop 112)) =
      some (120, 2, 1, [0x3e, 0], [2, 0, 0, 0, 0, 0, 0, 0]) := by decide

/-- C10: gen_headers does not return a byte sequence when a field value is
out of range: a target_id that is negative or at least 2 to the 16, or a
flags value that is negative or at least 2 to the 32, makes it fail (the
int.to_bytes call raises OverflowError in the source; the model returns
none). -/
theorem C10_overflow (t i f : Int) (w be : Bool) :
    ((t < 0 ∨ 65536 ≤ t) → gen_headers t i w be f = none) ∧
      ((f < 0 ∨ 4294967296 ≤ f) → gen_headers t i w be f = none) :=
  ⟨fun h => gen_headers_none_of_target t i f w be h,
    fun h => gen_headers_none_of_flags t i f w be h⟩

theorem C10_witness :
    gen_headers (-1) 4 true false 0 = none ∧
      gen_headers 62 4 true false 4294967296 = none :=
  ⟨(C10_overflow (-1) 4 0 true false).1 (Or.inl (by norm_num)),
    (C10_overflow 62 4 4294967296 true false).2 (Or.inr (by norm_num))⟩

/-- gen_headers is the concatenation of the field decomposition
gen_fields. -/
lemma gen_headers_eq_fields (t i f : Int) (w be : Bool) :
    gen_headers t i w be f = (gen_fields t i w be f).map List.flatten := by
  rw [gen_headers, gen_fields, Option.map_map]
  cases encodeFields be (header_fields t i w f) with
  | none => rfl
  | some bs =>
    simp only [Option.map_some', Option.some.injEq, Function.comp]
    cases w <;> cases be <;> simp [List.flatten_append]

/-- C2 counterexample: byte 5 of the output, the single-byte e_ident
data-encoding field, differs between the little-endian and the big-endian
output of gen_headers(62, 4), so not every single-byte field is unchanged
when only the endianness selector changes. -/
theorem C2_counterexample :
    ¬ ((gen_headers 62 4 true false 0).map (fun l => l.getD 5 0) =
        (gen_headers 62 4 true true 0).map (fun l => l.getD 5 0)) := by
  decide

/-- C2 amended: with all other arguments equal, the big-endian field list is
obtained from the little-endian one by reversing every multi-byte field and
keeping every single-byte field, except the e_ident data-encoding byte at
field index 5, which is 1 in the little-endian output and becomes 2 in the
big-endian output; flattening the field lists gives the two gen_headers
outputs. -/
theorem C2_amended_endianness (t i f : Int) (w : Bool)
    (oF oT : List (List Nat))
    (hF : gen_fields t i w false f = some oF)
    (hT : gen_fields t i w true f = some oT) :
    oT = mapWithIdx
        (fun j bs => if j = 5 then [2]
          else if bs.length ≤ 1 then bs else bs.reverse) 0 oF ∧
      gen_headers t i w false f = some oF.flatten ∧
      gen_headers t i w true f = some oT.flatten := by
  have e1 : gen_headers t i w false f = some oF.flatten := by
    rw [gen_headers_eq_fields t i f w false, hF]; rfl
  have e2 : gen_headers t i w true f = some oT.flatten := by
    rw [gen_headers_eq_fields t i f w true, hT]; rfl
  refine ⟨?_, e1, e2⟩
  obtain ⟨⟨ht0, ht1⟩, ⟨hf0, hf1⟩, hsz⟩ := ranges_of_some t i f w false _ e1
  cases w with
  | false =>
    simp only [Bool.false_eq_true, if_false] at hsz
    rw [gen_fields, fields32 t i f false ht0 ht1 hf0 hf1 hsz.1 hsz.2] at hF
    rw [gen_fields, fields32 t i f true ht0 ht1 hf0 hf1 hsz.1 hsz.2] at hT
    simp only [Option.map_some', Option.some.injEq] at hF hT
    subst hF
    subst hT
    simp [mapWithIdx, encBytes, encBytes_length, toBytesLE_length]
  | true =>
    simp only [if_true] at hsz
    rw [gen_fields, fields64 t i f false ht0 ht1 hf0 hf1 hsz.1 hsz.2] at hF
    rw [gen_fields, fields64 t i f true ht0 ht1 hf0 hf1 hsz.1 hsz.2] at hT
    simp only [Option.map_some', Option.some.injEq] at hF hT
    subst hF
    subst hT
    simp [mapWithIdx, encBytes, encBytes_length, toBytesLE_length]

theorem C2_amended_witness :
    (gen_fields 62 4 true true 0).getD [] = mapWithIdx
        (fun j bs => if j = 5 then [2]
          else if bs.length ≤ 1 then bs else bs.reverse) 0
        ((gen_fields 62 4 true false 0).getD []) ∧
      gen_headers 62 4 true false 0 =
        some ((gen_fields 62 4 true false 0).getD []).flatten ∧
      gen_headers 62 4 true true 0 =
        some ((gen_fields 62 4 true true 0).getD []).flatten :=
  C2_amended_endianness 62 4 0 true _ _ (by decide) (by decide)

lemma getD_set_self (l : List Nat) (j v : Nat) (h : j < l.length) :
    (l.set j v).getD j 0 = v := by
  induction l generalizing j with
  | nil => simp at h
  | cons x xs ih =>
    cases j with
    | zero => rfl
    | succ n => exact ih n (by simpa using h)

lemma set_ne_of_getD (l : List Nat) (j v : Nat) (hj : j < l.length)
    (hv : v ≠ l.getD j 0) : l.set j v ≠ l := by
  intro heq
  apply hv
  rw [← getD_set_self l j v hj, heq]

/-- C8: the exit status of the comparator is the number of the five
fixtures whose on-disk bytes differ from the computed expected bytes: every
fixture contributes independently of the others, the status is 0 when all
five match, and overwriting any single byte of one matching fixture with a
different value raises the count by exactly one. -/
theorem C8_exit_status :
    (∀ a b c d e : List Nat, fails a b c d e =
        (([(a, expected_arm64_bytes), (b, expected_i386_bytes),
          (c, expected_riscv64_bytes), (d, expected_s390x_bytes),
          (e, expected_x86_64_bytes)].filter
            (fun p => p.1 ≠ p.2)).length)) ∧
      fails expected_arm64_bytes expected_i386_bytes expected_riscv64_bytes
        expected_s390x_bytes expected_x86_64_bytes = 0 ∧
      (∀ b c d e : List Nat, ∀ j v : Nat, j < expected_arm64_bytes.length →
        v ≠ expected_arm64_bytes.getD j 0 →
        fails (expected_arm64_bytes.set j v) b c d e =
          fails expected_arm64_bytes b c d e + 1) ∧
      (∀ a c d e : List Nat, ∀ j v : Nat, j < expected_i386_bytes.length →
        v ≠ expected_i386_bytes.getD j 0 →
        fails a (expected_i386_bytes.set j v) c d e =
          fails a expected_i386_bytes c d e + 1) ∧
      (∀ a b d e : List Nat, ∀ j v : Nat, j < expected_riscv64_bytes.length →
        v ≠ expected_riscv64_bytes.getD j 0 →
        fails a b (expected_riscv64_bytes.set j v) d e =
          fails a b expected_riscv64_bytes d e + 1) ∧
      (∀ a b c e : List Nat, ∀ j v : Nat, j < expected_s390x_bytes.length →
        v ≠ expected_s390x_bytes.getD j 0 →
        fails a b c (expected_s390x_bytes.set j v) e =
          fails a b c expected_s390x_bytes e + 1) ∧
      (∀ a b c d : List Nat, ∀ j v : Nat, j < expected_x86_64_bytes.length →
        v ≠ expected_x86_64_bytes.getD j 0 →
        fails a b c d (expected_x86_64_bytes.set j v) =
          fails a b c d expected_x86_64_bytes + 1) := by
  refine ⟨?_, by simp [fails], ?_, ?_, ?_, ?_, ?_⟩
  · intro a b c d e
    by_cases h1 : a = expected_arm64_bytes <;>
      by_cases h2 : b = expected_i386_bytes <;>
        by_cases h3 : c = expected_riscv64_bytes <;>
          by_cases h4 : d = expected_s390x_bytes <;>
            by_cases h5 : e = expected_x86_64_bytes <;>
              simp [fails, h1, h2, h3, h4, h5]
  · intro b c d e j v hj hv
    simp only [fails]
    rw [if_pos (set_ne_of_getD _ j v hj hv), if_neg (not_not_intro rfl)]
    ring
  · intro a c d e j v hj hv
    simp only [fails]
    rw [if_pos (set_ne_of_getD _ j v hj hv), if_neg (not_not_intro rfl)]
    ring
  · intro a b d e j v hj hv
    simp only [fails]
    rw [if_pos (set_ne_of_getD _ j v hj hv), if_neg (not_not_intro rfl)]
    ring
  · intro a b c e j v hj hv
    simp only [fails]
    rw [if_pos (set_ne_of_getD _ j v hj hv), if_neg (not_not_intro rfl)]
    ring
  · intro a b c d j v hj hv
    simp only [fails]
    rw [if_pos (set_ne_of_getD _ j v hj hv), if_neg (not_not_intro rfl)]

theorem C8_witness :
    fails (expected_arm64_bytes.set 0 0) expected_i386_bytes
        expected_riscv64_bytes expected_s390x_bytes expected_x86_64_bytes =
      fails expected_arm64_bytes expected_i386_bytes expected_riscv64_bytes
        expected_s390x_bytes expected_x86_64_bytes + 1 :=
  C8_exit_status.2.2.1 expected_i386_bytes expected_riscv64_bytes
    expected_s390x_bytes expected_x86_64_bytes 0 0 (by decide) (by decide)
